import Mathlib

/-!
Verification of the local-rag RAG pipeline (`rag_pipeline.py`, `app.py`,
`config.py`) against its natural-language specification.

Shallow embedding conventions:
- Python strings are modelled as `List Char` (`Txt`); Python `len`, slicing
  and concatenation are `List.length`, `List.take`/`List.drop` and `++`,
  which match Python's per-character semantics.
- The filesystem is explicit state: the `documents/` directory is an
  `Option (List PdfFile)` (`none` = directory absent) and the persisted
  ChromaDB at `CHROMA_DB_DIR` is an `Option Store` (`none` = no directory
  on disk).
- External capabilities (the sentence-transformers embedding model, the
  cosine-similarity ranking inside Chroma, the Ollama LLM) are modelled as
  explicit parameters (`sim`, `gen`) or as data recording exactly what the
  code passed to them.
- Fallible code returns `Except`; a Python function that both mutates disk
  state and may raise returns a pair (result, post-state), since the state
  mutations performed before the raise persist.
-/

namespace LocalRag

/-- Python text, one entry per character (Python `len` counts characters). -/
abbrev Txt := List Char

/-- Coerce a Lean string literal to modelled Python text. -/
def lit (s : String) : Txt := s.toList

/-! ## config.py -/

/-- `config.CHUNK_SIZE` -/
def CHUNK_SIZE : Nat := 1000

/-- `config.CHUNK_OVERLAP` -/
def CHUNK_OVERLAP : Nat := 200

/-- `config.EMBEDDING_MODEL` -/
def EMBEDDING_MODEL : Txt := lit "all-MiniLM-L6-v2"

/-- `config.TOP_K` -/
def TOP_K : Nat := 4

/-- `config.COLLECTION_NAME` -/
def COLLECTION_NAME : Txt := lit "my-documents"

/-! ## Data model -/

/-- Metadata carried by a LangChain `Document`: the `source_filename` key
added by `carica_pdf` (absent when a chunk was indexed without it, read back
with default `"sconosciuto"`) and the `page` key set by `PyPDFLoader`
(absent read back as `"n/a"`). -/
structure DocMeta where
  source_filename : Option Txt
  page : Option Nat
deriving Repr, DecidableEq

/-- A LangChain `Document`: page content plus metadata. Both the per-page
units produced by the loader and the chunks produced by splitting. -/
structure Document where
  page_content : Txt
  metadata : DocMeta
deriving Repr, DecidableEq

/-- The embedding function object built by `_crea_embeddings`: a
`HuggingFaceEmbeddings(model_name=..., model_kwargs={"device": ...})`
instantiation, identified by model name and device. -/
structure Embedder where
  model_name : Txt
  device : Txt
deriving Repr, DecidableEq

/-- `_crea_embeddings()`: `HuggingFaceEmbeddings(model_name=config.EMBEDDING_MODEL,
model_kwargs={"device": "cpu"})`.  Modelled as a function of the configured
model identifier (the value of `config.EMBEDDING_MODEL` at call time). -/
def crea_embeddings (embedding_model : Txt) : Embedder :=
  { model_name := embedding_model, device := lit "cpu" }

/-- One persisted ChromaDB entry: the chunk (text + metadata) together with
the embedder instantiation whose vector was stored for it at indexing time.
The numeric vector itself is external; per the spec it is a deterministic
function of (text, model), so recording the pair captures its identity. -/
structure Entry where
  chunk : Document
  embedded_with : Embedder
deriving Repr, DecidableEq

/-- The persisted ChromaDB collection on disk: its entries.  Note that the
on-disk format stores vectors, texts and metadata but NOT which embedding
model produced the vectors; accordingly `Store` has no embedder field. -/
structure Store where
  entries : List Entry
deriving Repr, DecidableEq

/-- An in-memory `Chroma` object: a handle to a persisted collection
together with the `embedding_function` supplied at construction time
(used to embed queries). -/
structure Handle where
  store : Store
  embedding_function : Embedder
deriving Repr, DecidableEq

/-- One page extracted by `PyPDFLoader` from a PDF file. -/
structure PdfPage where
  text : Txt
  page : Nat
deriving Repr, DecidableEq

instance instDecEqExcept {ε α : Type} [DecidableEq ε] [DecidableEq α] :
    DecidableEq (Except ε α) := fun a b =>
  match a, b with
  | .error e, .error f =>
    if h : e = f then .isTrue (congrArg Except.error h)
    else .isFalse (fun hc => h (Except.error.inj hc))
  | .ok x, .ok y =>
    if h : x = y then .isTrue (congrArg Except.ok h)
    else .isFalse (fun hc => h (Except.ok.inj hc))
  | .error _, .ok _ => .isFalse (fun hc => Except.noConfusion hc)
  | .ok _, .error _ => .isFalse (fun hc => Except.noConfusion hc)

/-- A file in the `documents/` directory: its name, and the outcome of
`PyPDFLoader(...).load()` on it — either the list of pages or the
exception message raised for a corrupt file. -/
structure PdfFile where
  name : Txt
  pages : Except Txt (List PdfPage)
deriving Repr, DecidableEq

/-- The filesystem state the pipeline reads and writes:
`documents_dir` models `config.DOCUMENTS_DIR` (`none` = absent) and
`chroma_db` models the persisted store at `config.CHROMA_DB_DIR`
(`none` = no directory ⇒ `os.path.exists` is false). -/
structure SysState where
  documents_dir : Option (List PdfFile)
  chroma_db : Option Store
deriving Repr, DecidableEq

/-! ## Loader (`carica_pdf`) -/

/-- The filter applied by `glob.glob(os.path.join(cartella, "*.pdf"))`:
glob matching is case-sensitive (POSIX fnmatch), so only names ending in
lowercase `".pdf"` match. -/
def globPdf (name : Txt) : Bool := (lit ".pdf").isSuffixOf name

/-- The files returned by `glob.glob(pattern)` in `carica_pdf`. -/
def matchedFiles (files : List PdfFile) : List PdfFile :=
  files.filter (fun f => globPdf f.name)

/-- The body of the per-file `try` block of `carica_pdf`: load the pages of
one PDF and stamp `source_filename` on each page's metadata; on an
extraction exception the file contributes nothing (the `except` branch
logs and continues). -/
def loadPages (f : PdfFile) : List Document :=
  match f.pages with
  | .error _ => []
  | .ok pagine =>
    pagine.map (fun p =>
      { page_content := p.text
        metadata := { source_filename := some f.name, page := some p.page } })

/-- `carica_pdf(cartella)`: glob for `*.pdf`, return `[]` when nothing
matches (also when the directory is absent — glob then matches nothing),
else accumulate the pages of each loadable file, skipping files whose
extraction raises. -/
def carica_pdf (dir : Option (List PdfFile)) : List Document :=
  match dir with
  | none => []
  | some files => (matchedFiles files).flatMap loadPages

/-! ## Chunker (`chunking`)

`chunking` in `rag_pipeline.py` only configures and calls LangChain's
`RecursiveCharacterTextSplitter` with
`separators=["\n\n", "\n", ". ", " ", ""]`, `length_function=len`; the
splitting algorithm itself lives in the external library, not in this
repository.  The splitter below is therefore modelled from the spec. -/

/-- Splitting one list on a separator sublist (Python `str.split`-style,
separators removed).  Fuel-driven; `splitOnSep` supplies enough fuel. -/
def splitOnAux (sep : Txt) : Nat → Txt → Txt → List Txt
  | _, [], acc => [acc.reverse]
  | 0, rest, acc => [acc.reverse ++ rest]
  | fuel + 1, c :: rest, acc =>
    if sep.isPrefixOf (c :: rest) then
      acc.reverse :: splitOnAux sep fuel (List.drop sep.length (c :: rest)) []
    else
      splitOnAux sep fuel rest (c :: acc)

/-- Split `text` on every occurrence of `sep`. -/
def splitOnSep (sep text : Txt) : List Txt := splitOnAux sep text.length text []

/-- Modelled from the spec: the last resort of the hierarchical strategy —
splitting "then raw characters" (the final `""` separator).  Emits windows
of `size` characters advancing by `size - overlap`, so consecutive chunks
share `overlap` trailing/leading characters; a text of at most `size`
characters is one chunk.  Fuel-driven; `charChunks` supplies enough fuel
(sufficient whenever `overlap < size`). -/
def charChunksAux (size step : Nat) : Nat → Txt → List Txt
  | 0, text => [text.take size]
  | fuel + 1, text =>
    if text.length ≤ size then [text]
    else text.take size :: charChunksAux size step fuel (text.drop step)

/-- Character-level chunking with overlap. -/
def charChunks (size overlap : Nat) (text : Txt) : List Txt :=
  charChunksAux size (size - overlap) text.length text

/-- The longest suffix of `xs` of length at most `n`. -/
def takeRight (n : Nat) (xs : Txt) : Txt := xs.drop (xs.length - n)

/-- Modelled from the spec: merging adjacent small pieces back into chunks
of at most `size` characters, rejoined with the separator they were split
on; when a chunk is emitted, the next chunk carries over a suffix of it of
at most `overlap` characters (capped so the new chunk still fits `size`),
so "consecutive chunks from the same unit share up to `chunk_overlap`
trailing/leading characters". -/
def mergeAcc (size overlap : Nat) (sep : Txt) (acc : Txt) : List Txt → List Txt
  | [] => [acc]
  | p :: ps =>
    if acc.length + sep.length + p.length ≤ size then
      mergeAcc size overlap sep (acc ++ sep ++ p) ps
    else
      acc :: mergeAcc size overlap sep
        (if takeRight (min overlap (size - (sep.length + p.length))) acc = [] then p
         else takeRight (min overlap (size - (sep.length + p.length))) acc ++ sep ++ p) ps

/-- Merge a run of pieces into chunks of at most `size` characters. -/
def mergeSplits (size overlap : Nat) (sep : Txt) : List Txt → List Txt
  | [] => []
  | p :: ps => mergeAcc size overlap sep p ps

/-- Modelled from the spec: the hierarchical separator strategy of the
external `RecursiveCharacterTextSplitter` — "attempt to split on paragraph
breaks first, then line breaks, then sentence-terminal punctuation+space,
then plain spaces, then raw characters — descending in granularity only
when a candidate piece still exceeds `chunk_size`". -/
def splitRec (size overlap : Nat) : List Txt → Txt → List Txt
  | [], text => charChunks size overlap text
  | sep :: rest, text =>
    mergeSplits size overlap sep
      ((splitOnSep sep text).flatMap fun p =>
        if p.length ≤ size then [p] else splitRec size overlap rest p)

/-- The `separators=["\n\n", "\n", ". ", " ", ""]` list passed to the
splitter; the final `""` (raw characters) is the `[]` base case of
`splitRec`. -/
def SEPARATORS : List Txt := [lit "\n\n", lit "\n", lit ". ", lit " "]

/-- Split one page's text into chunk texts. -/
def split_text (chunk_size chunk_overlap : Nat) (text : Txt) : List Txt :=
  splitRec chunk_size chunk_overlap SEPARATORS text

/-- `chunking(documenti, chunk_size, chunk_overlap)`: split every document;
each chunk is a `Document` whose text is the piece and whose metadata is
inherited unchanged from the page it came from. -/
def chunking (documenti : List Document) (chunk_size chunk_overlap : Nat) :
    List Document :=
  documenti.flatMap fun d =>
    (split_text chunk_size chunk_overlap d.page_content).map
      fun t => { page_content := t, metadata := d.metadata }

/-! ## Index (`crea_vector_store`, `carica_vector_store`) -/

/-- `Chroma.from_documents(documents=chunks, embedding=..., persist_directory=...,
collection_name=...)` (external library): embeds every chunk with the given
embedder, ADDS the resulting entries to whatever collection already exists
at the persistence location (it does not clear it — the repository's own
comment at `indicizza_documenti` step 0 relies on deleting the directory
first "così non restino chunk di documenti eliminati"), and returns a
handle on the resulting collection. -/
def chroma_from_documents (embeddings : Embedder) (chunks : List Document)
    (disk : Option Store) : Store × Option Store :=
  let prior := (disk.getD { entries := [] }).entries
  let st : Store :=
    { entries := prior ++ chunks.map fun c => { chunk := c, embedded_with := embeddings } }
  (st, some st)

/-- `crea_vector_store(chunks, persist_directory)`: build the embedding
function with `_crea_embeddings()` (from the configured model identifier)
and persist all chunks through `Chroma.from_documents`.  Returns the
resulting store and the new on-disk state. -/
def crea_vector_store (embedding_model : Txt) (chunks : List Document)
    (disk : Option Store) : Store × Option Store :=
  chroma_from_documents (crea_embeddings embedding_model) chunks disk

/-- `carica_vector_store(persist_directory)`: `None` when the persistence
directory does not exist; otherwise reconstruct a `Chroma` handle with a
freshly built embedding function (no re-embedding of stored entries), then
`None` when `_collection.count() == 0`, else the handle. -/
def carica_vector_store (embedding_model : Txt) (disk : Option Store) :
    Option Handle :=
  match disk with
  | none => none
  | some store =>
    let embeddings := crea_embeddings embedding_model
    let conteggio := store.entries.length
    if conteggio = 0 then none
    else some { store := store, embedding_function := embeddings }

/-! ## Indexing pipeline (`indicizza_documenti`) -/

/-- `indicizza_documenti()`.  Step 0 deletes the old vector store directory
when it exists (`shutil.rmtree`); step 1 loads the PDFs and raises
`ValueError` when none were loaded (the deletion has already happened, so
the raising path leaves no store on disk); steps 2–3 chunk and build the
new store.  Returns the raised-or-returned value together with the
post-state. -/
def indicizza_documenti (s : SysState) : Except Txt Store × SysState :=
  let s0 : SysState := { s with chroma_db := none }
  let documenti := carica_pdf s.documents_dir
  if documenti = [] then
    (.error (lit "Nessun documento trovato! Metti dei PDF nella cartella documents/"), s0)
  else
    let chunks := chunking documenti CHUNK_SIZE CHUNK_OVERLAP
    let r := crea_vector_store EMBEDDING_MODEL chunks s0.chroma_db
    (.ok r.1, { s0 with chroma_db := r.2 })

/-! ## RAG chain (`crea_catena_rag`, `fai_domanda`) -/

/-- The `TEMPLATE_PROMPT` string of `rag_pipeline.py`, verbatim. -/
def TEMPLATE_PROMPT : Txt := lit "Sei un assistente esperto che risponde a domande basandosi ESCLUSIVAMENTE sui documenti forniti.\n\nREGOLE IMPORTANTI:\n1. Rispondi SOLO usando le informazioni presenti nel contesto qui sotto\n2. Se il contesto non contiene informazioni sufficienti, dillo chiaramente\n3. Cita sempre le fonti: indica da quale documento e pagina proviene ogni informazione\n4. Rispondi in italiano\n5. Sii preciso e conciso\n\nCONTESTO (estratto dai documenti):\n{context}\n\nDOMANDA: {question}\n\nRISPOSTA (con citazione delle fonti):"

/-- The `{context}` placeholder. -/
def PH_CONTEXT : Txt := lit "{context}"

/-- The `{question}` placeholder. -/
def PH_QUESTION : Txt := lit "{question}"

/-- The template text before the `{context}` slot. -/
def TEMPLATE_PRE : Txt := lit "Sei un assistente esperto che risponde a domande basandosi ESCLUSIVAMENTE sui documenti forniti.\n\nREGOLE IMPORTANTI:\n1. Rispondi SOLO usando le informazioni presenti nel contesto qui sotto\n2. Se il contesto non contiene informazioni sufficienti, dillo chiaramente\n3. Cita sempre le fonti: indica da quale documento e pagina proviene ogni informazione\n4. Rispondi in italiano\n5. Sii preciso e conciso\n\nCONTESTO (estratto dai documenti):\n"

/-- The template text between the `{context}` and `{question}` slots. -/
def TEMPLATE_MID : Txt := lit "\n\nDOMANDA: "

/-- The template text after the `{question}` slot. -/
def TEMPLATE_POST : Txt := lit "\n\nRISPOSTA (con citazione delle fonti):"

/-- `PromptTemplate(...).format(context=..., question=...)`: a single
left-to-right pass over the template replacing each `{context}` /
`{question}` placeholder with its value; substituted values are not
re-scanned (Python format semantics).  Fuel-driven; `promptFormat`
supplies the template length as fuel, which placeholder steps never
exhaust since each consumes one fuel but at least 9 characters. -/
def formatAux (ctx q : Txt) : Nat → Txt → Txt
  | 0, t => t
  | fuel + 1, t =>
    if PH_CONTEXT.isPrefixOf t then
      ctx ++ formatAux ctx q fuel (t.drop PH_CONTEXT.length)
    else if PH_QUESTION.isPrefixOf t then
      q ++ formatAux ctx q fuel (t.drop PH_QUESTION.length)
    else
      match t with
      | [] => []
      | c :: rest => c :: formatAux ctx q fuel rest

/-- Format a prompt template with a context block and a question. -/
def promptFormat (tmpl ctx q : Txt) : Txt := formatAux ctx q tmpl.length tmpl

/-- The components dictionary built by `crea_catena_rag(vector_store)`:
the retriever is the vector store with `search_kwargs={"k": config.TOP_K}`,
and the prompt template is the fixed `TEMPLATE_PROMPT`.  The `OllamaLLM`
object is an external endpoint, modelled as the `gen` parameter of
`fai_domanda`. -/
structure Catena where
  vector_store : Handle
  k : Nat
deriving Repr, DecidableEq

/-- `crea_catena_rag(vector_store)`. -/
def crea_catena_rag (vs : Handle) : Catena := { vector_store := vs, k := TOP_K }

/-- Sorted insertion by descending similarity to the query (stable). -/
def insertDesc (score : Document → Int) (d : Document) :
    List Document → List Document
  | [] => [d]
  | e :: es =>
    if score e < score d then d :: e :: es else e :: insertDesc score d es

/-- Sort documents by descending similarity score. -/
def sortDesc (score : Document → Int) : List Document → List Document
  | [] => []
  | d :: ds => insertDesc score d (sortDesc score ds)

/-- Modelled from the spec: `Index.search` / the Chroma similarity
retriever (external library) — "nearest neighbors under cosine similarity,
descending score, length = min(k, entry count)".  The similarity between
the query text and a stored chunk text is given by the external embedding
model; it is taken here as the parameter `sim`. -/
def searchTopK (sim : Txt → Txt → Int) (st : Store) (q : Txt) (k : Nat) :
    List Document :=
  (sortDesc (fun d => sim q d.page_content) (st.entries.map (·.chunk))).take k

/-- `retriever.invoke(domanda)` inside `fai_domanda`. -/
def retriever_invoke (sim : Txt → Txt → Int) (c : Catena) (q : Txt) :
    List Document :=
  searchTopK sim c.vector_store.store q c.k

/-- The chunk-joining delimiter `"\n\n---\n\n"` of `fai_domanda` step 2. -/
def CONTEXT_DELIM : Txt := lit "\n\n---\n\n"

/-- Step 2 of `fai_domanda`: `"\n\n---\n\n".join(doc.page_content for doc
in documenti_trovati)`. -/
def contestoOf (documenti_trovati : List Document) : Txt :=
  List.intercalate CONTEXT_DELIM (documenti_trovati.map (·.page_content))

/-- One element of the `fonti` list of `fai_domanda`:
`{"documento": metadata.get("source_filename", "sconosciuto"),
"pagina": metadata.get("page", "n/a"), "testo_chunk": page_content[:300] + "..."}`.
The `pagina` value is the stored page number when present (`none` models
the `"n/a"` default). -/
structure Fonte where
  documento : Txt
  pagina : Option Nat
  testo_chunk : Txt
deriving Repr, DecidableEq

/-- Build one `fonte` dict from a retrieved chunk. -/
def fonteOf (doc : Document) : Fonte :=
  { documento := doc.metadata.source_filename.getD (lit "sconosciuto")
    pagina := doc.metadata.page
    testo_chunk := doc.page_content.take 300 ++ lit "..." }

/-- The dictionary returned by `fai_domanda`. -/
structure Risultato where
  risposta : Txt
  fonti : List Fonte
deriving Repr, DecidableEq

/-- The `prompt_finale` assembled in step 3 of `fai_domanda`. -/
def prompt_finale (sim : Txt → Txt → Int) (domanda : Txt) (catena : Catena) :
    Txt :=
  promptFormat TEMPLATE_PROMPT (contestoOf (retriever_invoke sim catena domanda))
    domanda

/-- `fai_domanda(domanda, catena)`: retrieve the top-K chunks, join them
into the context, format the prompt, call the LLM (`gen`, the external
Ollama endpoint), and map each retrieved chunk to a `fonte` record in
retrieval order. -/
def fai_domanda (sim : Txt → Txt → Int) (gen : Txt → Txt) (domanda : Txt)
    (catena : Catena) : Risultato :=
  let documenti_trovati := retriever_invoke sim catena domanda
  let contesto := contestoOf documenti_trovati
  let pf := promptFormat TEMPLATE_PROMPT contesto domanda
  let risposta := gen pf
  { risposta := risposta, fonti := documenti_trovati.map fonteOf }

/-! ## App layer (`app.py`) -/

/-- The filter of `lista_documenti()`:
`f.lower().endswith(".pdf")` — case-insensitive extension match. -/
def lista_match (name : Txt) : Bool :=
  (lit ".pdf").isSuffixOf (name.map Char.toLower)

/-- `lista_documenti()`: `[]` when the documents directory does not exist,
else the names listed there whose lowercase form ends in `".pdf"`. -/
def lista_documenti (dir : Option (List PdfFile)) : List Txt :=
  match dir with
  | none => []
  | some files => (files.map (·.name)).filter lista_match

/-- The session population at app start-up: `carica_vector_store()` and,
when it returns a store, `crea_catena_rag` on it; otherwise the session
has no chain. -/
def app_init_session (embedding_model : Txt) (disk : Option Store) :
    Option Catena :=
  (carica_vector_store embedding_model disk).map
    fun h => crea_catena_rag h

/-- Outcome of submitting a question in the app. -/
inductive HandlerResult where
  | warning
  | answered (r : Risultato)
deriving Repr, DecidableEq

/-- The `if domanda:` handler of `app.py`: when no chain is in the session
(`"catena" not in st.session_state`) it shows the "Devi prima indicizzare i
documenti!" warning and calls nothing; otherwise it runs `fai_domanda`. -/
def domanda_handler (sim : Txt → Txt → Int) (gen : Txt → Txt)
    (session : Option Catena) (domanda : Txt) : HandlerResult :=
  match session with
  | none => .warning
  | some catena => .answered (fai_domanda sim gen domanda catena)

/-! ## Generic helper lemmas -/

/-- A list is a boolean prefix of itself followed by anything. -/
lemma isPrefixOf_append_self : ∀ (l t : Txt), l.isPrefixOf (l ++ t) = true
  | [], _ => by simp [List.isPrefixOf]
  | c :: cs, t => by
    simp only [List.cons_append, List.isPrefixOf, Bool.and_eq_true, beq_self_eq_true,
      true_and]
    exact isPrefixOf_append_self cs t

/-- Boolean prefix fails on a head mismatch. -/
lemma isPrefixOf_head_ne {a b : Char} (as bs : Txt) (h : a ≠ b) :
    (a :: as).isPrefixOf (b :: bs) = false := by
  simp only [List.isPrefixOf, Bool.and_eq_false_iff]
  exact Or.inl (beq_eq_false_iff_ne.mpr h)

/-- Boolean suffix of an appended copy of itself. -/
lemma isSuffixOf_append_self (s t : Txt) : s.isSuffixOf (t ++ s) = true := by
  simp only [List.isSuffixOf, List.reverse_append]
  exact isPrefixOf_append_self s.reverse t.reverse

/-- `take` yields a boolean prefix. -/
lemma take_isPrefixOf : ∀ (l : Txt) (n : Nat), (l.take n).isPrefixOf l = true
  | _, 0 => by simp [List.isPrefixOf]
  | [], _ + 1 => by simp [List.isPrefixOf]
  | c :: cs, n + 1 => by
    simp only [List.take_succ_cons, List.isPrefixOf, Bool.and_eq_true,
      beq_self_eq_true, true_and]
    exact take_isPrefixOf cs n

/-! ## Chunk-size bound (claim C4) -/

/-- Every window emitted by character-level chunking is at most `size`. -/
lemma charChunksAux_length (size step : Nat) :
    ∀ (fuel : Nat) (text : Txt), ∀ c ∈ charChunksAux size step fuel text,
      c.length ≤ size := by
  intro fuel
  induction fuel with
  | zero =>
    intro text c hc
    simp only [charChunksAux, List.mem_singleton] at hc
    subst hc
    simp [List.length_take]
  | succ n ih =>
    intro text c hc
    by_cases h : text.length ≤ size
    · simp only [charChunksAux, if_pos h, List.mem_singleton] at hc
      subst hc
      exact h
    · simp only [charChunksAux, if_neg h, List.mem_cons] at hc
      rcases hc with hc | hc
      · subst hc
        simp [List.length_take]
      · exact ih _ c hc

/-- Merging keeps every chunk at most `size` provided the accumulator and
all pending pieces are. -/
lemma mergeAcc_length (size overlap : Nat) (sep : Txt) :
    ∀ (ps : List Txt) (acc : Txt), acc.length ≤ size →
      (∀ p ∈ ps, p.length ≤ size) →
      ∀ c ∈ mergeAcc size overlap sep acc ps, c.length ≤ size := by
  intro ps
  induction ps with
  | nil =>
    intro acc ha _ c hc
    simp only [mergeAcc, List.mem_singleton] at hc
    subst hc
    exact ha
  | cons p ps ih =>
    intro acc ha hps c hc
    rw [mergeAcc] at hc
    by_cases h : acc.length + sep.length + p.length ≤ size
    · rw [if_pos h] at hc
      refine ih _ ?_ (fun x hx => hps x (List.mem_cons_of_mem _ hx)) c hc
      simp only [List.length_append]
      omega
    · rw [if_neg h] at hc
      rcases List.mem_cons.mp hc with hc | hc
      · subst hc
        exact ha
      · refine ih _ ?_ (fun x hx => hps x (List.mem_cons_of_mem _ hx)) c hc
        by_cases hcar :
            takeRight (min overlap (size - (sep.length + p.length))) acc = []
        · simpa [hcar] using hps p (List.mem_cons_self p ps)
        · have hp : p.length ≤ size := hps p (List.mem_cons_self p ps)
          have hmin : min overlap (size - (sep.length + p.length))
              ≤ size - (sep.length + p.length) := Nat.min_le_right _ _
          have hlen : (takeRight (min overlap (size - (sep.length + p.length))) acc).length
              ≤ min overlap (size - (sep.length + p.length)) := by
            simp only [takeRight, List.length_drop]
            omega
          have hpos :
              (takeRight (min overlap (size - (sep.length + p.length))) acc).length ≠ 0 := by
            simpa [List.length_eq_zero] using hcar
          rw [if_neg hcar]
          simp only [List.length_append]
          omega

/-- Every chunk produced by a merge run is at most `size` provided every
input piece is. -/
lemma mergeSplits_length (size overlap : Nat) (sep : Txt) :
    ∀ (ps : List Txt), (∀ p ∈ ps, p.length ≤ size) →
      ∀ c ∈ mergeSplits size overlap sep ps, c.length ≤ size := by
  intro ps hps c hc
  cases ps with
  | nil => simp [mergeSplits] at hc
  | cons p rest =>
    rw [mergeSplits] at hc
    exact mergeAcc_length size overlap sep rest p (hps p (List.mem_cons_self p rest))
      (fun x hx => hps x (List.mem_cons_of_mem _ hx)) c hc

/-- Every chunk emitted by the hierarchical splitter is at most `size`. -/
lemma splitRec_length (size overlap : Nat) :
    ∀ (seps : List Txt) (text : Txt), ∀ c ∈ splitRec size overlap seps text,
      c.length ≤ size := by
  intro seps
  induction seps with
  | nil =>
    intro text c hc
    rw [splitRec] at hc
    exact charChunksAux_length size (size - overlap) text.length text c hc
  | cons sep rest ih =>
    intro text c hc
    rw [splitRec] at hc
    refine mergeSplits_length size overlap sep _ ?_ c hc
    intro p hp
    rcases List.mem_flatMap.mp hp with ⟨piece, _, hpmem⟩
    by_cases h : piece.length ≤ size
    · rw [if_pos h] at hpmem
      rcases List.mem_singleton.mp hpmem with rfl
      exact h
    · rw [if_neg h] at hpmem
      exact ih piece p hpmem

/-! ## The chunker never returns an empty chunk list (used for claim C8) -/

/-- Character-level chunking always emits at least one chunk. -/
lemma charChunksAux_ne_nil (size step : Nat) :
    ∀ (fuel : Nat) (text : Txt), charChunksAux size step fuel text ≠ [] := by
  intro fuel text
  cases fuel with
  | zero => simp [charChunksAux]
  | succ n =>
    by_cases h : text.length ≤ size
    · simp [charChunksAux, h]
    · simp [charChunksAux, h]

/-- A merge run over a nonempty accumulator emits at least one chunk. -/
lemma mergeAcc_ne_nil (size overlap : Nat) (sep : Txt) :
    ∀ (ps : List Txt) (acc : Txt), mergeAcc size overlap sep acc ps ≠ [] := by
  intro ps
  induction ps with
  | nil => intro acc; simp [mergeAcc]
  | cons p ps ih =>
    intro acc
    rw [mergeAcc]
    by_cases h : acc.length + sep.length + p.length ≤ size
    · rw [if_pos h]; exact ih _
    · rw [if_neg h]; simp

/-- Splitting on a separator yields at least one piece. -/
lemma splitOnAux_ne_nil (sep : Txt) :
    ∀ (fuel : Nat) (text acc : Txt), splitOnAux sep fuel text acc ≠ [] := by
  intro fuel
  induction fuel with
  | zero => intro text acc; cases text <;> simp [splitOnAux]
  | succ n ih =>
    intro text acc
    cases text with
    | nil => simp [splitOnAux]
    | cons c rest =>
      rw [splitOnAux]
      by_cases h : sep.isPrefixOf (c :: rest)
      · rw [if_pos h]; simp
      · rw [if_neg h]; exact ih _ _

/-- The hierarchical splitter always emits at least one chunk. -/
lemma splitRec_ne_nil (size overlap : Nat) :
    ∀ (seps : List Txt) (text : Txt), splitRec size overlap seps text ≠ [] := by
  intro seps
  induction seps with
  | nil =>
    intro text
    rw [splitRec]
    exact charChunksAux_ne_nil size (size - overlap) text.length text
  | cons sep rest ih =>
    intro text
    rw [splitRec]
    have hpieces := splitOnAux_ne_nil sep text.length text []
    rcases List.exists_mem_of_ne_nil _ hpieces with ⟨piece, hpiece⟩
    have hproc :
        ((splitOnSep sep text).flatMap fun p =>
          if p.length ≤ size then [p] else splitRec size overlap rest p) ≠ [] := by
      intro hnil
      have := (List.flatMap_eq_nil_iff.mp hnil) piece hpiece
      by_cases h : piece.length ≤ size
      · rw [if_pos h] at this; exact List.cons_ne_nil _ _ this
      · rw [if_neg h] at this; exact ih piece this
    cases hw : ((splitOnSep sep text).flatMap fun p =>
        if p.length ≤ size then [p] else splitRec size overlap rest p) with
    | nil => exact absurd hw hproc
    | cons q qs =>
      rw [mergeSplits]
      exact mergeAcc_ne_nil size overlap sep qs q

/-- `chunking` yields no chunks exactly when it was given no documents. -/
lemma chunking_eq_nil_iff (documenti : List Document) (S O : Nat) :
    chunking documenti S O = [] ↔ documenti = [] := by
  constructor
  · intro h
    cases documenti with
    | nil => rfl
    | cons d ds =>
      exfalso
      have hd := List.flatMap_eq_nil_iff.mp h d (List.mem_cons_self d ds)
      rcases List.exists_mem_of_ne_nil _
        (splitRec_ne_nil S O SEPARATORS d.page_content) with ⟨t, ht⟩
      have : ({ page_content := t, metadata := d.metadata } : Document) ∈
          (split_text S O d.page_content).map
            (fun t => { page_content := t, metadata := d.metadata }) :=
        List.mem_map.mpr ⟨t, ht, rfl⟩
      rw [hd] at this
      exact List.not_mem_nil _ this
  · intro h
    subst h
    rfl

/-! ## Prompt formatting lemmas (used for claim C6) -/

/-- Formatting exhausts on the empty template. -/
lemma formatAux_nil (ctx q : Txt) : ∀ (fuel : Nat), formatAux ctx q fuel [] = [] := by
  intro fuel
  cases fuel with
  | zero => rfl
  | succ n => simp [formatAux, PH_CONTEXT, PH_QUESTION, lit, List.isPrefixOf]

/-- A template character other than `'{'` is copied through verbatim. -/
lemma formatAux_copy (ctx q : Txt) (fuel : Nat) (c : Char) (t : Txt) (h : c ≠ '{') :
    formatAux ctx q (fuel + 1) (c :: t) = c :: formatAux ctx q fuel t := by
  have h1 : PH_CONTEXT.isPrefixOf (c :: t) = false :=
    isPrefixOf_head_ne _ _ (fun hc => h hc.symm)
  have h2 : PH_QUESTION.isPrefixOf (c :: t) = false :=
    isPrefixOf_head_ne _ _ (fun hc => h hc.symm)
  rw [formatAux, h1]
  simp only [Bool.false_eq_true, if_false, h2]

/-- A placeholder-free template segment is copied through verbatim. -/
lemma formatAux_segment (ctx q : Txt) :
    ∀ (pre : Txt), (∀ c ∈ pre, c ≠ '{') → ∀ (fuel : Nat) (t : Txt),
      formatAux ctx q (pre.length + fuel) (pre ++ t) = pre ++ formatAux ctx q fuel t := by
  intro pre
  induction pre with
  | nil => intro _ fuel t; simp
  | cons c cs ih =>
    intro h fuel t
    have hc : c ≠ '{' := h c (List.mem_cons_self c cs)
    have hgoal := formatAux_copy ctx q (cs.length + fuel) c (cs ++ t) hc
    simp only [List.length_cons, List.cons_append]
    rw [Nat.add_right_comm, hgoal, ih (fun x hx => h x (List.mem_cons_of_mem _ hx)) fuel t]

/-- The `{context}` placeholder substitutes the context block. -/
lemma formatAux_context (ctx q : Txt) (fuel : Nat) (t : Txt) :
    formatAux ctx q (fuel + 1) (PH_CONTEXT ++ t) = ctx ++ formatAux ctx q fuel t := by
  rw [formatAux.eq_def]
  simp only [isPrefixOf_append_self, if_true, List.drop_left]

/-- The `{question}` placeholder substitutes the question verbatim. -/
lemma formatAux_question (ctx q : Txt) (fuel : Nat) (t : Txt) :
    formatAux ctx q (fuel + 1) (PH_QUESTION ++ t) = q ++ formatAux ctx q fuel t := by
  have h1 : PH_CONTEXT.isPrefixOf (PH_QUESTION ++ t) = false := by
    simp [PH_CONTEXT, PH_QUESTION, lit, List.isPrefixOf]
  rw [formatAux.eq_def]
  simp only [h1, Bool.false_eq_true, if_false, isPrefixOf_append_self, if_true,
    List.drop_left]

set_option maxRecDepth 40000 in
/-- Formatting the fixed template is exactly: the instruction text, then
the context block in the `{context}` slot, then the question verbatim in
the `{question}` slot, then the closing instruction. -/
lemma promptFormat_eq (ctx q : Txt) :
    promptFormat TEMPLATE_PROMPT ctx q =
      TEMPLATE_PRE ++ ctx ++ TEMPLATE_MID ++ q ++ TEMPLATE_POST := by
  have hpre : ∀ c ∈ TEMPLATE_PRE, c ≠ '{' := by decide
  have hmid : ∀ c ∈ TEMPLATE_MID, c ≠ '{' := by decide
  have hpost : ∀ c ∈ TEMPLATE_POST, c ≠ '{' := by decide
  have hdec : TEMPLATE_PROMPT =
      TEMPLATE_PRE ++ (PH_CONTEXT ++ (TEMPLATE_MID ++ (PH_QUESTION ++
        (TEMPLATE_POST ++ [])))) := by decide
  have hlen : TEMPLATE_PROMPT.length =
      TEMPLATE_PRE.length + ((TEMPLATE_MID.length + ((TEMPLATE_POST.length + 17) + 1)) + 1) := by
    decide
  unfold promptFormat
  rw [hlen, hdec]
  rw [formatAux_segment ctx q TEMPLATE_PRE hpre]
  rw [formatAux_context]
  rw [formatAux_segment ctx q TEMPLATE_MID hmid]
  rw [formatAux_question]
  rw [formatAux_segment ctx q TEMPLATE_POST hpost]
  rw [formatAux_nil]
  simp [List.append_assoc]

/-! ## Concrete fixtures used by witnesses and counterexamples -/

/-- A one-page PDF file, loadable. -/
def exPage : PdfPage := { text := lit "The capital of Italy is Rome.", page := 0 }

/-- A loadable PDF file. -/
def exFile : PdfFile := { name := lit "paper.pdf", pages := .ok [exPage] }

/-- A corrupt PDF file whose extraction raises. -/
def exBadFile : PdfFile :=
  { name := lit "corrotto.pdf", pages := .error (lit "EOF marker not found") }

/-- The page of `exFile` as loaded and tagged by `carica_pdf`. -/
def exIndexedDoc : Document :=
  { page_content := lit "The capital of Italy is Rome."
    metadata := { source_filename := some (lit "paper.pdf"), page := some 0 } }

/-- A stale store left on disk by an earlier build. -/
def exOldStore : Store :=
  { entries := [{ chunk := { page_content := lit "stale chunk of a deleted document"
                             metadata := { source_filename := some (lit "old.pdf"), page := some 3 } }
                  embedded_with := crea_embeddings EMBEDDING_MODEL }] }

/-- The store that indexing `exFile` produces. -/
def exNewStore : Store :=
  { entries := [{ chunk := exIndexedDoc, embedded_with := crea_embeddings EMBEDDING_MODEL }] }

/-- A tiny chunk used for citation examples. -/
def exChunk : Document :=
  { page_content := lit "abc"
    metadata := { source_filename := some (lit "paper.pdf"), page := some 0 } }

/-- A store holding just `exChunk`. -/
def exStore : Store :=
  { entries := [{ chunk := exChunk, embedded_with := crea_embeddings EMBEDDING_MODEL }] }

/-- A RAG chain over `exStore`. -/
def exCatena : Catena :=
  crea_catena_rag { store := exStore, embedding_function := crea_embeddings EMBEDDING_MODEL }

/-- A concrete external similarity function (constant). -/
def simZero : Txt → Txt → Int := fun _ _ => 0

/-- A concrete external generator (echoes its prompt). -/
def genEcho : Txt → Txt := fun p => p

/-! ## Claim theorems -/

/-- C1: index rebuild is destructive and complete.  Whatever store was
persisted before (`old₁` vs `old₂`), `indicizza_documenti` behaves
identically — the prior store is entirely deleted before the new one is
created — and on success the new store's entries are exactly the embedded
chunks of the currently loaded documents, so no entry of an earlier build
(in particular no chunk of a since-removed source document) survives into
the latest build's index. -/
theorem claim_C1_rebuild_destructive (docs : Option (List PdfFile))
    (old₁ old₂ : Option Store) :
    indicizza_documenti { documents_dir := docs, chroma_db := old₁ } =
      indicizza_documenti { documents_dir := docs, chroma_db := old₂ } ∧
    ∀ st s₁,
      indicizza_documenti { documents_dir := docs, chroma_db := old₁ } = (.ok st, s₁) →
      s₁.chroma_db = some st ∧
      st.entries = (chunking (carica_pdf docs) CHUNK_SIZE CHUNK_OVERLAP).map
        (fun c => { chunk := c, embedded_with := crea_embeddings EMBEDDING_MODEL }) := by
  constructor
  · rfl
  · intro st s₁ h
    by_cases hd : carica_pdf docs = []
    · have hcomp : (indicizza_documenti { documents_dir := docs, chroma_db := old₁ }).1 =
          .error (lit "Nessun documento trovato! Metti dei PDF nella cartella documents/") := by
        simp [indicizza_documenti, hd]
      rw [h] at hcomp
      exact absurd hcomp (by simp)
    · have hcomp : indicizza_documenti { documents_dir := docs, chroma_db := old₁ } =
          (.ok ⟨(chunking (carica_pdf docs) CHUNK_SIZE CHUNK_OVERLAP).map
              (fun c => { chunk := c, embedded_with := crea_embeddings EMBEDDING_MODEL })⟩,
            { documents_dir := docs,
              chroma_db := some ⟨(chunking (carica_pdf docs) CHUNK_SIZE CHUNK_OVERLAP).map
                (fun c => { chunk := c, embedded_with := crea_embeddings EMBEDDING_MODEL })⟩ }) := by
        simp [indicizza_documenti, hd, crea_vector_store, chroma_from_documents]
      rw [hcomp] at h
      rw [Prod.mk.injEq] at h
      obtain ⟨h1, h2⟩ := h
      have hst : st = ⟨(chunking (carica_pdf docs) CHUNK_SIZE CHUNK_OVERLAP).map
          (fun c => { chunk := c, embedded_with := crea_embeddings EMBEDDING_MODEL })⟩ :=
        (Except.ok.inj h1).symm
      subst hst
      rw [← h2]
      exact ⟨rfl, rfl⟩

/-- C1 witness: a concrete build over one loadable PDF, with a stale store
on disk, succeeds and its index holds exactly the current document's
chunks. -/
theorem claim_C1_witness :
    ({ documents_dir := some [exFile], chroma_db := some exNewStore } : SysState).chroma_db
      = some exNewStore ∧
    exNewStore.entries = (chunking (carica_pdf (some [exFile])) CHUNK_SIZE CHUNK_OVERLAP).map
      (fun c => { chunk := c, embedded_with := crea_embeddings EMBEDDING_MODEL }) :=
  (claim_C1_rebuild_destructive (some [exFile]) (some exOldStore) none).2 exNewStore
    { documents_dir := some [exFile], chroma_db := some exNewStore } (by decide)

/-- C2: `carica_vector_store` returns `None` exactly when no store is
persisted or the persisted store has zero entries; in every other case it
returns a handle whose store is the persisted one unchanged (no
re-embedding — the entries, including the embedder that produced their
vectors, are exactly the persisted ones). -/
theorem claim_C2_load_none_iff (em : Txt) (disk : Option Store) :
    (carica_vector_store em disk = none ↔
      disk = none ∨ ∃ st, disk = some st ∧ st.entries = []) ∧
    ∀ st h, disk = some st → carica_vector_store em disk = some h → h.store = st := by
  constructor
  · cases disk with
    | none => simp [carica_vector_store]
    | some st =>
      by_cases he : st.entries.length = 0
      · have : st.entries = [] := List.length_eq_zero.mp he
        simp [carica_vector_store, he, this]
      · have : st.entries ≠ [] := fun hnil => he (by rw [hnil]; rfl)
        simp only [carica_vector_store, if_neg he]
        constructor
        · intro hc
          exact absurd hc (by simp)
        · rintro (hc | ⟨st2, hst2, hnil⟩)
          · exact absurd hc (by simp)
          · exact absurd ((Option.some.inj hst2) ▸ hnil) this
  · intro st h hd hc
    subst hd
    simp only [carica_vector_store] at hc
    by_cases he : st.entries.length = 0
    · rw [if_pos he] at hc
      exact absurd hc (by simp)
    · rw [if_neg he] at hc
      have := Option.some.inj hc
      rw [← this]

/-- C2 witness: loading a nonempty persisted store yields the handle on
that very store. -/
theorem claim_C2_witness :
    (carica_vector_store EMBEDDING_MODEL (some exStore) = none ↔
      some exStore = none ∨ ∃ st, some exStore = some st ∧ st.entries = []) ∧
    ({ store := exStore, embedding_function := crea_embeddings EMBEDDING_MODEL } : Handle).store
      = exStore :=
  ⟨(claim_C2_load_none_iff EMBEDDING_MODEL (some exStore)).1,
   (claim_C2_load_none_iff EMBEDDING_MODEL (some exStore)).2 exStore
     { store := exStore, embedding_function := crea_embeddings EMBEDDING_MODEL }
     rfl (by decide)⟩

/-- C4: for every document list and every configuration with
`chunk_overlap < chunk_size`, every chunk emitted by `chunking` has text
length at most `chunk_size` characters. -/
theorem claim_C4_chunk_length_le_size (documenti : List Document) (S O : Nat)
    (_hO : O < S) : ∀ c ∈ chunking documenti S O, c.page_content.length ≤ S := by
  intro c hc
  rcases List.mem_flatMap.mp hc with ⟨d, _, hcd⟩
  rcases List.mem_map.mp hcd with ⟨t, ht, rfl⟩
  exact splitRec_length S O SEPARATORS d.page_content t ht

/-- C4 witness: a concrete chunking run with `chunk_size = 5`,
`chunk_overlap = 2` obeys the bound. -/
theorem claim_C4_witness :
    2 < 5 ∧
    ((chunking [exIndexedDoc] 5 2).get ⟨0, by decide⟩).page_content.length ≤ 5 :=
  ⟨by decide, claim_C4_chunk_length_le_size [exIndexedDoc] 5 2 (by decide) _
    (List.get_mem _ _ _)⟩

/-- C7: per-file failure containment in the loader — a file whose
extraction raises contributes nothing while every other file's pages are
still loaded (the directory splits around it) — and an absent or empty
directory yields the empty list, not an error. -/
theorem claim_C7_loader_isolation (fs₁ fs₂ : List PdfFile) (bad : PdfFile)
    (e : Txt) (hbad : bad.pages = .error e) :
    carica_pdf (some (fs₁ ++ bad :: fs₂)) =
      carica_pdf (some fs₁) ++ carica_pdf (some fs₂) ∧
    carica_pdf none = [] ∧ carica_pdf (some []) = [] := by
  refine ⟨?_, rfl, rfl⟩
  have hload : loadPages bad = [] := by
    simp [loadPages, hbad]
  simp only [carica_pdf, matchedFiles, List.filter_append, List.filter_cons]
  by_cases h : globPdf bad.name
  · simp [h, List.flatMap_append, hload]
  · simp [h, List.flatMap_append]

/-- C7 witness: a corrupt file between two loadable copies is skipped and
both neighbours load. -/
theorem claim_C7_witness :
    (carica_pdf (some ([exFile] ++ exBadFile :: [exFile])) =
      carica_pdf (some [exFile]) ++ carica_pdf (some [exFile])) ∧
    carica_pdf none = [] ∧ carica_pdf (some []) = [] :=
  claim_C7_loader_isolation [exFile] [exFile] exBadFile
    (lit "EOF marker not found") (by decide)

/-- C8: when the chunk sequence the pipeline would index is empty (which,
for this chunker, happens exactly when the loader returned no documents),
`indicizza_documenti` raises the `ValueError` and creates no new store:
the post-state has no persisted store at all (the old one was already
deleted in step 0, and `crea_vector_store` is never reached). -/
theorem claim_C8_empty_chunks_error (s : SysState)
    (h : chunking (carica_pdf s.documents_dir) CHUNK_SIZE CHUNK_OVERLAP = []) :
    (indicizza_documenti s).1 =
      .error (lit "Nessun documento trovato! Metti dei PDF nella cartella documents/") ∧
    (indicizza_documenti s).2.chroma_db = none := by
  have hd : carica_pdf s.documents_dir = [] :=
    (chunking_eq_nil_iff (carica_pdf s.documents_dir) CHUNK_SIZE CHUNK_OVERLAP).mp h
  constructor
  · simp [indicizza_documenti, hd]
  · simp [indicizza_documenti, hd]

/-- C8 witness: indexing an empty documents directory (with a stale store
on disk) raises and leaves no store. -/
theorem claim_C8_witness :
    (indicizza_documenti { documents_dir := some [], chroma_db := some exOldStore }).1 =
      .error (lit "Nessun documento trovato! Metti dei PDF nella cartella documents/") ∧
    (indicizza_documenti { documents_dir := some [], chroma_db := some exOldStore }).2.chroma_db
      = none :=
  claim_C8_empty_chunks_error { documents_dir := some [], chroma_db := some exOldStore }
    (by decide)

/-- C3 counterexample: the claim says each citation's excerpt is the first
N characters of the chunk's text, equivalently a prefix of it.  For the
chunk `"abc"` the produced excerpt is `"abc..."` — the code appends a
literal ellipsis (`page_content[:300] + "..."`), so the excerpt is neither
`take 300` of the text nor a prefix of it. -/
theorem claim_C3_counterexample :
    retriever_invoke simZero exCatena (lit "demo") = [exChunk] ∧
    (fai_domanda simZero genEcho (lit "demo") exCatena).fonti =
      [{ documento := lit "paper.pdf", pagina := some 0, testo_chunk := lit "abc..." }] ∧
    (lit "abc...").isPrefixOf exChunk.page_content = false ∧
    exChunk.page_content.take 300 ≠ lit "abc..." :=
  ⟨by decide, by decide, by decide, by decide⟩

/-- C3 amended: `fai_domanda` returns exactly one citation per retrieved
chunk, in retrieval order; each citation's document is the chunk's stored
source file name (default `"sconosciuto"`), its page is the chunk's stored
page number, and its excerpt is the first 300 characters of the chunk's
text FOLLOWED BY the literal ellipsis `"..."` (the first-300-characters
part being a prefix of the chunk's text). -/
theorem claim_C3_amended_citations (sim : Txt → Txt → Int) (gen : Txt → Txt)
    (q : Txt) (c : Catena) :
    ((fai_domanda sim gen q c).fonti).length = (retriever_invoke sim c q).length ∧
    ∀ (i : Nat) (hi : i < (retriever_invoke sim c q).length)
      (hf : i < ((fai_domanda sim gen q c).fonti).length),
      ((fai_domanda sim gen q c).fonti.get ⟨i, hf⟩).documento =
        ((retriever_invoke sim c q).get ⟨i, hi⟩).metadata.source_filename.getD
          (lit "sconosciuto") ∧
      ((fai_domanda sim gen q c).fonti.get ⟨i, hf⟩).pagina =
        ((retriever_invoke sim c q).get ⟨i, hi⟩).metadata.page ∧
      ((fai_domanda sim gen q c).fonti.get ⟨i, hf⟩).testo_chunk =
        ((retriever_invoke sim c q).get ⟨i, hi⟩).page_content.take 300 ++ lit "..." ∧
      (((retriever_invoke sim c q).get ⟨i, hi⟩).page_content.take 300).isPrefixOf
        ((retriever_invoke sim c q).get ⟨i, hi⟩).page_content = true := by
  have hfonti : (fai_domanda sim gen q c).fonti = (retriever_invoke sim c q).map fonteOf :=
    rfl
  constructor
  · rw [hfonti, List.length_map]
  · intro i hi hfi
    have hg : (fai_domanda sim gen q c).fonti.get ⟨i, hfi⟩ =
        fonteOf ((retriever_invoke sim c q).get ⟨i, hi⟩) := by
      have h1 : (fai_domanda sim gen q c).fonti.get ⟨i, hfi⟩ =
          ((retriever_invoke sim c q).map fonteOf).get ⟨i, by rw [← hfonti]; exact hfi⟩ := by
        congr 1
      rw [h1]
      simp [List.get_eq_getElem, List.getElem_map]
    rw [hg]
    exact ⟨rfl, rfl, rfl, take_isPrefixOf _ 300⟩

/-- C3 witness: the amended description holds at a concrete retrieval,
instantiated at the first citation. -/
theorem claim_C3_witness :
    ((fai_domanda simZero genEcho (lit "demo") exCatena).fonti).length =
      (retriever_invoke simZero exCatena (lit "demo")).length ∧
    ((fai_domanda simZero genEcho (lit "demo") exCatena).fonti.get
        ⟨0, by decide⟩).testo_chunk =
      ((retriever_invoke simZero exCatena (lit "demo")).get
        ⟨0, by decide⟩).page_content.take 300 ++ lit "..." :=
  ⟨(claim_C3_amended_citations simZero genEcho (lit "demo") exCatena).1,
   ((claim_C3_amended_citations simZero genEcho (lit "demo") exCatena).2 0
     (by decide) (by decide)).2.2.1⟩

/-- C5 counterexample: the on-disk store records no embedder identity, and
loading with a different configured model identifier succeeds (returns a
handle, no fail-fast) even though its query embedder differs from the one
that embedded the stored entries. -/
theorem claim_C5_counterexample :
    carica_vector_store (lit "paraphrase-multilingual")
        (crea_vector_store EMBEDDING_MODEL [exChunk] none).2 =
      some { store := exStore
             embedding_function :=
               { model_name := lit "paraphrase-multilingual", device := lit "cpu" } } ∧
    ({ model_name := lit "paraphrase-multilingual", device := lit "cpu" } : Embedder) ≠
      crea_embeddings EMBEDDING_MODEL :=
  ⟨by decide, by decide⟩

/-- C5 amended: as long as the configured model identifier is unchanged,
the embedding function built when loading the persisted index is the
identical instantiation (same model identifier, same `"cpu"` device) used
when the index was built, because both call the shared `_crea_embeddings`
helper; but no embedder identity is stored alongside the persisted index
and no mismatch check exists. -/
theorem claim_C5_amended_same_embedder (em : Txt) (chunks : List Document)
    (h : Handle)
    (hload : carica_vector_store em (crea_vector_store em chunks none).2 = some h) :
    h.embedding_function = crea_embeddings em ∧
    ∀ e ∈ h.store.entries, e.embedded_with = h.embedding_function := by
  have hdisk : (crea_vector_store em chunks none).2 =
      some ⟨chunks.map (fun c => { chunk := c, embedded_with := crea_embeddings em })⟩ := by
    simp [crea_vector_store, chroma_from_documents]
  rw [hdisk] at hload
  simp only [carica_vector_store] at hload
  by_cases he : (chunks.map
      (fun c => ({ chunk := c, embedded_with := crea_embeddings em } : Entry))).length = 0
  · rw [if_pos he] at hload
    exact absurd hload (by simp)
  · rw [if_neg he] at hload
    have hhandle := Option.some.inj hload
    rw [← hhandle]
    refine ⟨rfl, ?_⟩
    intro e hmem
    simp only at hmem
    rcases List.mem_map.mp hmem with ⟨d, _, rfl⟩
    rfl

/-- C5 witness: building and loading under the same configured model
yields the same embedder on both sides. -/
theorem claim_C5_witness :
    ({ store := exStore, embedding_function := crea_embeddings EMBEDDING_MODEL } : Handle).embedding_function
      = crea_embeddings EMBEDDING_MODEL ∧
    ({ chunk := exChunk, embedded_with := crea_embeddings EMBEDDING_MODEL } : Entry).embedded_with
      = ({ store := exStore, embedding_function := crea_embeddings EMBEDDING_MODEL } : Handle).embedding_function :=
  ⟨(claim_C5_amended_same_embedder EMBEDDING_MODEL [exChunk]
      { store := exStore, embedding_function := crea_embeddings EMBEDDING_MODEL } (by decide)).1,
   (claim_C5_amended_same_embedder EMBEDDING_MODEL [exChunk]
      { store := exStore, embedding_function := crea_embeddings EMBEDDING_MODEL } (by decide)).2
     { chunk := exChunk, embedded_with := crea_embeddings EMBEDDING_MODEL } (by decide)⟩

/-- C6: for every nonempty retrieval result, the prompt handed to the
generator is exactly the fixed instruction template with its context slot
filled by the retrieved chunk texts joined, in retrieval order, by the
`"\n\n---\n\n"` delimiter, and its question slot filled with the question
verbatim. -/
theorem claim_C6_prompt_assembly (sim : Txt → Txt → Int) (gen : Txt → Txt)
    (q : Txt) (c : Catena) (_hne : retriever_invoke sim c q ≠ []) :
    (fai_domanda sim gen q c).risposta =
      gen (TEMPLATE_PRE ++
        List.intercalate CONTEXT_DELIM
          ((retriever_invoke sim c q).map (fun d => d.page_content)) ++
        TEMPLATE_MID ++ q ++ TEMPLATE_POST) := by
  have hr : (fai_domanda sim gen q c).risposta =
      gen (promptFormat TEMPLATE_PROMPT (contestoOf (retriever_invoke sim c q)) q) := rfl
  rw [hr, promptFormat_eq]
  rfl

/-- C6 witness: the prompt equation at a concrete chain and question. -/
theorem claim_C6_witness :
    (fai_domanda simZero genEcho (lit "demo") exCatena).risposta =
      genEcho (TEMPLATE_PRE ++
        List.intercalate CONTEXT_DELIM
          ((retriever_invoke simZero exCatena (lit "demo")).map (fun d => d.page_content)) ++
        TEMPLATE_MID ++ lit "demo" ++ TEMPLATE_POST) :=
  claim_C6_prompt_assembly simZero genEcho (lit "demo") exCatena (by decide)

/-- C9: asking with no chain in the session yields the warning, the
outcome is independent of the generator (no generation call is made), and
whenever the app session (populated by loading the persisted index)
answers, the persisted index existed and was nonempty and the answer is
the generator applied to the prompt assembled from the retrieval against
that index — generation is unreachable without a successful retrieval
setup. -/
theorem claim_C9_no_index_no_generation (sim : Txt → Txt → Int)
    (gen gen2 : Txt → Txt) (em : Txt) (disk : Option Store) (q : Txt) :
    domanda_handler sim gen none q = .warning ∧
    domanda_handler sim gen none q = domanda_handler sim gen2 none q ∧
    ∀ r, domanda_handler sim gen (app_init_session em disk) q = .answered r →
      ∃ st, disk = some st ∧ st.entries ≠ [] ∧
        r.risposta = gen (prompt_finale sim q (crea_catena_rag
          { store := st, embedding_function := crea_embeddings em })) := by
  refine ⟨rfl, rfl, ?_⟩
  intro r hr
  cases disk with
  | none =>
    exact absurd hr (by simp [app_init_session, carica_vector_store, domanda_handler])
  | some st =>
    by_cases he : st.entries.length = 0
    · exact absurd hr
        (by simp [app_init_session, carica_vector_store, he, domanda_handler])
    · refine ⟨st, rfl, fun hnil => he (by rw [hnil]; rfl), ?_⟩
      have hsession : app_init_session em (some st) =
          some (crea_catena_rag { store := st, embedding_function := crea_embeddings em }) := by
        simp [app_init_session, carica_vector_store, he]
      rw [hsession] at hr
      simp only [domanda_handler] at hr
      have hrr := HandlerResult.answered.inj hr
      rw [← hrr]
      rfl

/-- C9 witness: with a nonempty persisted index the session answers, and
the answer is the generator applied to the retrieval-derived prompt. -/
theorem claim_C9_witness :
    ∃ st, some exStore = some st ∧ st.entries ≠ [] ∧
      (fai_domanda simZero genEcho (lit "demo") exCatena).risposta =
        genEcho (prompt_finale simZero (lit "demo") (crea_catena_rag
          { store := st, embedding_function := crea_embeddings EMBEDDING_MODEL })) :=
  (claim_C9_no_index_no_generation simZero genEcho genEcho EMBEDDING_MODEL
      (some exStore) (lit "demo")).2.2
    (fai_domanda simZero genEcho (lit "demo") exCatena) rfl

/-- C10: a file whose name ends in `".PDF"` passes the case-insensitive
filter of the UI listing but fails the case-sensitive glob of the loader:
it is shown among the found documents yet is never among the files the
loader processes. -/
theorem claim_C10_case_mismatch (p : Txt) (f : PdfFile) (files : List PdfFile)
    (hname : f.name = p ++ lit ".PDF") (hmem : f ∈ files) :
    lista_match f.name = true ∧ globPdf f.name = false ∧
    f.name ∈ lista_documenti (some files) ∧ f ∉ matchedFiles files := by
  have hlista : lista_match f.name = true := by
    rw [hname]
    unfold lista_match
    rw [List.map_append]
    have hlow : (lit ".PDF").map Char.toLower = lit ".pdf" := by decide
    rw [hlow]
    exact isSuffixOf_append_self _ _
  have hglob : globPdf f.name = false := by
    rw [hname]
    show (lit ".pdf").reverse.isPrefixOf ((p ++ lit ".PDF").reverse) = false
    rw [List.reverse_append]
    have h1 : (lit ".pdf").reverse = 'f' :: lit "dp." := by decide
    have h2 : (lit ".PDF").reverse = 'F' :: lit "DP." := by decide
    rw [h1, h2, List.cons_append]
    exact isPrefixOf_head_ne _ _ (by decide)
  refine ⟨hlista, hglob, ?_, ?_⟩
  · show f.name ∈ (files.map (fun g => g.name)).filter lista_match
    exact List.mem_filter.mpr ⟨List.mem_map.mpr ⟨f, hmem, rfl⟩, hlista⟩
  · intro hcontra
    have hg := (List.mem_filter.mp hcontra).2
    simp only at hg
    rw [hglob] at hg
    exact Bool.false_ne_true hg

/-- A PDF file with an uppercase extension. -/
def exUpperFile : PdfFile := { name := lit "Report.PDF", pages := .ok [exPage] }

/-- C10 witness: `Report.PDF` is listed by the UI but not loaded. -/
theorem claim_C10_witness :
    lista_match exUpperFile.name = true ∧ globPdf exUpperFile.name = false ∧
    exUpperFile.name ∈ lista_documenti (some [exUpperFile]) ∧
    exUpperFile ∉ matchedFiles [exUpperFile] :=
  claim_C10_case_mismatch (lit "Report") exUpperFile [exUpperFile] (by decide)
    (List.mem_singleton.mpr rfl)

end LocalRag
